import Mathlib

/-!
# Verification of the Project-Wrapped aggregation pipeline

Shallow embedding of the aggregation pipeline of the Project-Wrapped repository:
the "enhanced" variant in `src/server/services/azure-devops.ts` together with the
two simpler source variants (`src/unnamed/part_001` and `src/unnamed/part_009`).

Modelling conventions:

* ISO timestamp strings are modelled by their semantic content: `dateDay` is the
  calendar-day index of the date part (the result of `.split("T")[0]`; for ISO
  dates the lexicographic string order used by the default `Array.sort()` agrees
  with day order), `dateMs` is the absolute timestamp `new Date(s).getTime()`,
  and `dateHour` / `dateDow` are the `getHours()` / `getDay()` values, which are
  always in `0..23` / `0..6`.  A millisecond difference of exactly 86400000
  between two date-part values corresponds to `dateDay` difference 1.
* JavaScript `Map`s (insertion ordered) are modelled as association lists in
  insertion order; `Map.get(k)` followed by field mutation is `updateFirstBy`
  (the pipeline only ever creates one entry per key).
* `Array.prototype.sort` (required to be stable since ES2019) is modelled by the
  stable `List.insertionSort`; for a comparator that induces a total preorder a
  stable sort's output is uniquely determined, so this agrees with the runtime.
* Optional JS fields are `Option`; `x || 0`-style defaults are `Option.getD`.
* Numbers are exact: counts are `ℕ`, story points and merge-hours are `ℚ`,
  `Math.floor` of a possibly negative quotient is `Int.fdiv`.
-/

namespace ProjectWrapped

/-- One commit record (`AzureDevOpsCommit`): author name/email and the pieces of
the `author.date` ISO timestamp that the pipeline consumes. -/
structure Commit where
  commitId : String
  authorName : String
  authorEmail : String
  /-- calendar-day index of the date part `author.date.split("T")[0]` -/
  dateDay : ℕ
  /-- absolute timestamp `new Date(author.date).getTime()` in milliseconds -/
  dateMs : ℕ
  /-- `new Date(author.date).getHours()` -/
  dateHour : Fin 24
  /-- `new Date(author.date).getDay()` (0 = Sunday) -/
  dateDow : Fin 7
  comment : String
  deriving DecidableEq

/-- One reviewer entry of a pull request. -/
structure Reviewer where
  displayName : String
  vote : ℤ
  deriving DecidableEq

/-- One pull request record (`AzureDevOpsPullRequest`); the optional
`reviewers` array is modelled as a plain list because every consumer reads it
as `pr.reviewers || []`. -/
structure PullRequest where
  pullRequestId : ℕ
  title : String
  status : String
  createdByName : String
  /-- `new Date(creationDate).getTime()` -/
  creationMs : ℕ
  /-- `new Date(closedDate).getTime()` when `closedDate` is present -/
  closedMs : Option ℕ
  reviewers : List Reviewer
  deriving DecidableEq

/-- One work item record (`AzureDevOpsWorkItem.fields`). -/
structure WorkItem where
  id : ℕ
  title : String
  /-- `fields["System.WorkItemType"]` -/
  wiType : String
  /-- `fields["System.State"]` -/
  state : String
  /-- `fields["System.AssignedTo"]?.displayName` -/
  assignedTo : Option String
  /-- `fields["Microsoft.VSTS.Scheduling.StoryPoints"]` -/
  storyPoints : Option ℚ
  /-- day index of `fields["System.CreatedDate"]` -/
  createdDay : ℕ
  /-- `fields["System.AreaPath"]` -/
  areaPath : Option String
  deriving DecidableEq

/-- Per-contributor statistics record (`Contributor` of `@shared/schema`).  The
simpler source variant creates its records without the last five fields; they
are carried here with value 0, which no simpler-variant code ever reads. -/
structure Contributor where
  name : String
  commits : ℕ
  pullRequestsOpened : ℕ
  pullRequestsReviewed : ℕ
  commentsWritten : ℕ
  bugsFixed : ℕ
  storyPointsDone : ℚ
  linesAdded : ℕ
  linesDeleted : ℕ
  avgPrMergeTimeHours : ℤ
  longestStreak : ℕ
  favoriteHour : ℕ
  deriving DecidableEq

/-- The zero-valued record installed on first sight of a contributor name. -/
def blank (n : String) : Contributor :=
  { name := n
    commits := 0
    pullRequestsOpened := 0
    pullRequestsReviewed := 0
    commentsWritten := 0
    bugsFixed := 0
    storyPointsDone := 0
    linesAdded := 0
    linesDeleted := 0
    avgPrMergeTimeHours := 0
    longestStreak := 0
    favoriteHour := 0 }

/-- `mostCommits` / `longestStreaks` ranking entry `{name, commits}`. -/
structure NameCommits where
  name : String
  commits : ℕ
  deriving DecidableEq

/-- `mostPullRequestsOpened` ranking entry. -/
structure NamePrsOpened where
  name : String
  pullRequestsOpened : ℕ
  deriving DecidableEq

/-- `mostPullRequestsReviewed` ranking entry. -/
structure NamePrsReviewed where
  name : String
  pullRequestsReviewed : ℕ
  deriving DecidableEq

/-- `mostCommentsWritten` ranking entry. -/
structure NameComments where
  name : String
  commentsWritten : ℕ
  deriving DecidableEq

/-- `busiestDaysByCommits` ranking entry `{date, commits}` (date = day index). -/
structure DateCommits where
  date : ℕ
  commits : ℕ
  deriving DecidableEq

/-- The five/six-wide leaderboard block (`Top5` of `@shared/schema`).  The
simpler variant does not produce `longestStreaks`; its builder leaves the field
empty. -/
structure Top5 where
  mostCommits : List NameCommits
  mostPullRequestsOpened : List NamePrsOpened
  mostPullRequestsReviewed : List NamePrsReviewed
  mostCommentsWritten : List NameComments
  busiestDaysByCommits : List DateCommits
  longestStreaks : List NameCommits
  deriving DecidableEq

/-- Activity-pattern block (`ActivityPattern` of `@shared/schema`). -/
structure ActivityPattern where
  hourlyDistribution : List ℕ
  dailyDistribution : List ℕ
  busiestHour : ℕ
  busiestDay : String
  peakProductivityTime : String
  deriving DecidableEq

/-- A dated narrative milestone (date = calendar-day index of the date string). -/
structure Milestone where
  date : ℕ
  title : String
  description : String
  icon : String
  deriving DecidableEq

/-- Result of `calculateStreaks`. -/
structure StreakData where
  longestStreak : ℕ
  streaksByAuthor : List (String × ℕ)
  deriving DecidableEq

/-- Result of `calculatePrMergeStats`. -/
structure PrMergeStats where
  avgMergeTimeHours : ℤ
  fastestMergeTimeHours : ℚ
  mergeTimeByAuthor : List (String × List ℚ)
  deriving DecidableEq

/-- Result of `aggregateCodeChanges`, consumed by `generateHighlights`. -/
structure CodeChanges where
  linesAdded : ℕ
  linesDeleted : ℕ
  filesChanged : ℕ
  deriving DecidableEq

/-! ## Small JS-semantics helpers -/

/-- Update the first list element satisfying `p` (the association-list model of
`map.get(key)` followed by mutation). -/
def updateFirstBy {α : Type} (p : α → Bool) (f : α → α) : List α → List α
  | [] => []
  | x :: rest => if p x then f x :: rest else x :: updateFirstBy p f rest

/-- `contributorMap.has(name)` on the association-list model. -/
def hasName (m : List Contributor) (n : String) : Bool :=
  m.any (fun c => c.name == n)

/-- `arr.indexOf(Math.max(...arr))`: index of the maximum entry of a histogram
(ties resolve to the lowest index); the histograms are nonempty with entries
`≥ 0`, so `Math.max` coincides with the fold below. -/
def jsMaxIndex (l : List ℕ) : ℕ :=
  l.indexOf (l.foldr max 0)

/-- `Math.round` on an exact rational (round half away from zero is round half
up for the nonnegative values produced here). -/
def jsRound (q : ℚ) : ℤ :=
  Int.floor (q + 1 / 2)

/-- Day number of a Gregorian calendar date: days since 0000-03-01 (Hinnant's
civil-from-days algorithm, restricted to `ℕ`, all divisions floor).  Models the
date part of an ISO timestamp; consecutive calendar dates get consecutive
numbers. -/
def toEpochDay (y m d : ℕ) : ℕ :=
  let y2 := if m ≤ 2 then y - 1 else y
  let era := y2 / 400
  let yoe := y2 % 400
  let mp := if 2 < m then m - 3 else m + 9
  let doy := (153 * mp + 2) / 5 + d - 1
  let doe := yoe * 365 + yoe / 4 - yoe / 100 + doy
  era * 146097 + doe

/-! ## Sort comparators

Each models a JS comparator `(a, b) => b.field - a.field` (descending) or
`(a, b) => a.field - b.field` (ascending). -/

/-- Descending by commit count. -/
def commitsGe (a b : Contributor) : Prop := b.commits ≤ a.commits

instance : DecidableRel commitsGe := fun _ _ => Nat.decLe _ _

instance : IsTotal Contributor commitsGe := ⟨fun a b => Nat.le_total b.commits a.commits⟩

instance : IsTrans Contributor commitsGe := ⟨fun _ _ _ h1 h2 => Nat.le_trans h2 h1⟩

/-- Descending by pull requests opened. -/
def openedGe (a b : Contributor) : Prop := b.pullRequestsOpened ≤ a.pullRequestsOpened

instance : DecidableRel openedGe := fun _ _ => Nat.decLe _ _

/-- Descending by pull requests reviewed. -/
def reviewedGe (a b : Contributor) : Prop := b.pullRequestsReviewed ≤ a.pullRequestsReviewed

instance : DecidableRel reviewedGe := fun _ _ => Nat.decLe _ _

/-- Descending by comments written. -/
def commentsGe (a b : Contributor) : Prop := b.commentsWritten ≤ a.commentsWritten

instance : DecidableRel commentsGe := fun _ _ => Nat.decLe _ _

/-- Descending by `(longestStreak || 0)`; the field is never absent here, so the
`|| 0` default is the identity. -/
def streakGe (a b : Contributor) : Prop := b.longestStreak ≤ a.longestStreak

instance : DecidableRel streakGe := fun _ _ => Nat.decLe _ _

/-- Descending by count, for `(date, count)` map entries. -/
def pairCountGe (a b : ℕ × ℕ) : Prop := b.2 ≤ a.2

instance : DecidableRel pairCountGe := fun _ _ => Nat.decLe _ _

/-- Ascending by milestone date (`new Date(a.date).getTime()` order). -/
def milestoneDateLe (a b : Milestone) : Prop := a.date ≤ b.date

instance : DecidableRel milestoneDateLe := fun _ _ => Nat.decLe _ _

instance : IsTotal Milestone milestoneDateLe := ⟨fun a b => Nat.le_total a.date b.date⟩

instance : IsTrans Milestone milestoneDateLe := ⟨fun _ _ _ h1 h2 => Nat.le_trans h1 h2⟩

/-- Ascending by commit timestamp. -/
def commitMsLe (a b : Commit) : Prop := a.dateMs ≤ b.dateMs

instance : DecidableRel commitMsLe := fun _ _ => Nat.decLe _ _

/-! ## `calculateActivityPattern` -/

/-- The `dayNames` table of `calculateActivityPattern`. -/
def dayNames : List String :=
  ["Sunday", "Monday", "Tuesday", "Wednesday", "Thursday", "Friday", "Saturday"]

/-- `arr[i]++` on a histogram list. -/
def bumpAt (l : List ℕ) (i : ℕ) : List ℕ :=
  l.set i (l.getD i 0 + 1)

/-- `calculateActivityPattern` (azure-devops.ts lines 262–294).  The single
source loop fills the two independent histograms; it is rendered as one fold
per histogram. -/
def calculateActivityPattern (commits : List Commit) : ActivityPattern :=
  let hourly := commits.foldl (fun h c => bumpAt h c.dateHour) (List.replicate 24 0)
  let daily := commits.foldl (fun h c => bumpAt h c.dateDow) (List.replicate 7 0)
  let busiestHour := jsMaxIndex hourly
  let busiestDayIndex := jsMaxIndex daily
  let peak :=
    if 5 ≤ busiestHour ∧ busiestHour < 12 then "Morning"
    else if 12 ≤ busiestHour ∧ busiestHour < 17 then "Afternoon"
    else if 17 ≤ busiestHour ∧ busiestHour < 21 then "Evening"
    else "Night"
  { hourlyDistribution := hourly
    dailyDistribution := daily
    busiestHour := busiestHour
    busiestDay := dayNames.getD busiestDayIndex ""
    peakProductivityTime := peak }

/-! ## `calculateStreaks` -/

/-- The keys of `commitsByAuthorAndDate`, in insertion order. -/
def authorsOf (commits : List Commit) : List String :=
  (commits.map (fun c => c.authorName)).dedup

/-- The date `Set` of one author: distinct commit days, in first-seen order. -/
def authorDates (commits : List Commit) (a : String) : List ℕ :=
  ((commits.filter (fun c => c.authorName == a)).map (fun c => c.dateDay)).dedup

/-- `Array.from(dates).sort()`: the default lexicographic sort of ISO date
strings is ascending day order. -/
def sortedAuthorDates (commits : List Commit) (a : String) : List ℕ :=
  (authorDates commits a).insertionSort (· ≤ ·)

/-- The `for (let i = 1; ...)` walk of `calculateStreaks`: arguments are the
remaining dates, the previous date, `currentStreak`, and `maxStreak`.  The
source condition `diffDays === 1` (an exact difference of 86400000 ms between
UTC-midnight dates) is day difference exactly one. -/
def streakLoop : List ℕ → ℕ → ℕ → ℕ → ℕ
  | [], _, _, maxS => maxS
  | d :: rest, prev, cur, maxS =>
    if d = prev + 1 then streakLoop rest d (cur + 1) (max maxS (cur + 1))
    else streakLoop rest d 1 maxS

/-- Streak of one author's date set; the source body runs only for authors
with at least one commit, so the `[]` branch is unreachable there. -/
def streakOfDates (dates : List ℕ) : ℕ :=
  match dates.insertionSort (· ≤ ·) with
  | [] => 0
  | d :: rest => streakLoop rest d 1 1

/-- `calculateStreaks` (azure-devops.ts lines 297–339). -/
def calculateStreaks (commits : List Commit) : StreakData :=
  let pairs := (authorsOf commits).map fun a => (a, streakOfDates (authorDates commits a))
  { longestStreak := pairs.foldl (fun m p => max m p.2) 0
    streaksByAuthor := pairs }

/-- `streaksByAuthor.get(name) || 0`. -/
def streakFor (sd : StreakData) (n : String) : ℕ :=
  ((sd.streaksByAuthor.find? (fun p => p.1 == n)).map (fun p => p.2)).getD 0

/-! ## `calculatePrMergeStats` -/

/-- `Math.min(...l)` for a nonempty list (only called under a length guard). -/
def jsMinQ (l : List ℚ) : ℚ :=
  match l with
  | [] => 0
  | h :: t => t.foldl min h

/-- Body of the `for (const pr of pullRequests)` loop of
`calculatePrMergeStats`; the accumulator is `(mergeTimes, mergeTimeByAuthor)`. -/
def prMergeFold (acc : List ℚ × List (String × List ℚ)) (pr : PullRequest) :
    List ℚ × List (String × List ℚ) :=
  match pr.closedMs with
  | none => acc
  | some closed =>
    if pr.status == "completed" then
      let hoursToMerge : ℚ := ((closed : ℚ) - (pr.creationMs : ℚ)) / (1000 * 60 * 60)
      if 0 < hoursToMerge ∧ hoursToMerge < 8760 then
        let byAuthor :=
          if acc.2.any (fun p => p.1 == pr.createdByName) then
            updateFirstBy (fun p => p.1 == pr.createdByName)
              (fun p => (p.1, p.2 ++ [hoursToMerge])) acc.2
          else acc.2 ++ [(pr.createdByName, [hoursToMerge])]
        (acc.1 ++ [hoursToMerge], byAuthor)
      else acc
    else acc

/-- `calculatePrMergeStats` (azure-devops.ts lines 228–259). -/
def calculatePrMergeStats (prs : List PullRequest) : PrMergeStats :=
  let acc := prs.foldl prMergeFold ([], [])
  let mergeTimes := acc.1
  { avgMergeTimeHours :=
      if 0 < mergeTimes.length then jsRound (mergeTimes.sum / mergeTimes.length) else 0
    fastestMergeTimeHours :=
      if 0 < mergeTimes.length then (jsRound (jsMinQ mergeTimes * 10) : ℚ) / 10 else 0
    mergeTimeByAuthor := acc.2 }

/-! ## `aggregateContributorStats` (enhanced variant, lines 663–775) -/

/-- The two mutable maps of the enhanced aggregator. -/
structure AggState where
  contributorMap : List Contributor
  commitHoursByAuthor : List (String × List ℕ)

/-- The `if (!contributorMap.has(name)) { set(blank); set(zero hours) }`
get-or-create step shared by the commit and PR loops. -/
def ensureContributor (st : AggState) (n : String) : AggState :=
  if hasName st.contributorMap n then st
  else
    { contributorMap := st.contributorMap ++ [blank n]
      commitHoursByAuthor := st.commitHoursByAuthor ++ [(n, List.replicate 24 0)] }

/-- One iteration of the commit loop: create on first sight, then
`commits++` and `commitHoursByAuthor.get(name)![hour]++`. -/
def commitStep (st : AggState) (c : Commit) : AggState :=
  let st1 := ensureContributor st c.authorName
  { contributorMap :=
      updateFirstBy (fun x => x.name == c.authorName)
        (fun x => { x with commits := x.commits + 1 }) st1.contributorMap
    commitHoursByAuthor :=
      updateFirstBy (fun p => p.1 == c.authorName)
        (fun p => (p.1, bumpAt p.2 c.dateHour)) st1.commitHoursByAuthor }

/-- One iteration of the inner reviewer loop: create on first sight, then
`pullRequestsReviewed++`. -/
def reviewerStep (st : AggState) (r : Reviewer) : AggState :=
  let st1 := ensureContributor st r.displayName
  { st1 with
      contributorMap :=
        updateFirstBy (fun x => x.name == r.displayName)
          (fun x => { x with pullRequestsReviewed := x.pullRequestsReviewed + 1 })
          st1.contributorMap }

/-- One iteration of the PR loop: author create + `pullRequestsOpened++`,
then the reviewer loop over `pr.reviewers || []`. -/
def prStep (st : AggState) (pr : PullRequest) : AggState :=
  let st1 := ensureContributor st pr.createdByName
  let st2 :=
    { st1 with
        contributorMap :=
          updateFirstBy (fun x => x.name == pr.createdByName)
            (fun x => { x with pullRequestsOpened := x.pullRequestsOpened + 1 })
            st1.contributorMap }
  pr.reviewers.foldl reviewerStep st2

/-- One iteration of the work-item loop (identical in both source variants):
`if (assignee && contributorMap.has(assignee))` — the `assignee &&` test guards
the undefined optional field, modelled by the `Option`; work items never create
new contributor entries. -/
def wiStep (m : List Contributor) (wi : WorkItem) : List Contributor :=
  match wi.assignedTo with
  | none => m
  | some a =>
    if hasName m a then
      let m1 :=
        if wi.wiType == "Bug" && wi.state == "Done" then
          updateFirstBy (fun x => x.name == a)
            (fun x => { x with bugsFixed := x.bugsFixed + 1 }) m
        else m
      updateFirstBy (fun x => x.name == a)
        (fun x => { x with storyPointsDone := x.storyPointsDone + wi.storyPoints.getD 0 }) m1
    else m

/-- The final `forEach` of the enhanced aggregator: fill in average PR merge
time, longest streak (`|| 0`), and favorite hour. -/
def finalizeContributor (pm : List (String × List ℚ)) (sd : List (String × ℕ))
    (hoursMap : List (String × List ℕ)) (c : Contributor) : Contributor :=
  let c1 :=
    match (pm.find? (fun p => p.1 == c.name)).map (fun p => p.2) with
    | some mergeTimes =>
      if 0 < mergeTimes.length then
        { c with avgPrMergeTimeHours := jsRound (mergeTimes.sum / mergeTimes.length) }
      else c
    | none => c
  let c2 :=
    { c1 with longestStreak := ((sd.find? (fun p => p.1 == c.name)).map (fun p => p.2)).getD 0 }
  match (hoursMap.find? (fun p => p.1 == c.name)).map (fun p => p.2) with
  | some hours => { c2 with favoriteHour := jsMaxIndex hours }
  | none => c2

/-- The contributor map of the enhanced aggregator after all four phases, in
insertion order, before the final sort-and-truncate.  `pm` is
`prMergeStats.mergeTimeByAuthor` and `sd` is `streakData.streaksByAuthor`. -/
def contributorMapFull (commits : List Commit) (prs : List PullRequest) (wis : List WorkItem)
    (pm : List (String × List ℚ)) (sd : List (String × ℕ)) : List Contributor :=
  let st := commits.foldl commitStep ⟨[], []⟩
  let st2 := prs.foldl prStep st
  let m := wis.foldl wiStep st2.contributorMap
  m.map (finalizeContributor pm sd st2.commitHoursByAuthor)

/-- `aggregateContributorStats` (enhanced): sort descending by commits and
keep the top 10. -/
def aggregateContributorStats (commits : List Commit) (prs : List PullRequest)
    (wis : List WorkItem) (pm : List (String × List ℚ)) (sd : List (String × ℕ)) :
    List Contributor :=
  ((contributorMapFull commits prs wis pm sd).insertionSort commitsGe).take 10

/-! ## `calculateTop5` -/

/-- The `commitsByDate` map of `calculateTop5`, then sort-descending-by-count
and keep the top 5 `(date, commits)` entries. -/
def busiestDaysOf (commits : List Commit) : List DateCommits :=
  let commitsByDate :=
    commits.foldl
      (fun m c =>
        if m.any (fun p => p.1 == c.dateDay) then
          updateFirstBy (fun p => p.1 == c.dateDay) (fun p => (p.1, p.2 + 1)) m
        else m ++ [(c.dateDay, 1)])
      []
  ((commitsByDate.insertionSort pairCountGe).take 5).map fun p =>
    { date := p.1, commits := p.2 }

/-- `calculateTop5` (enhanced variant, azure-devops.ts lines 804–846).  The
source sorts spread copies (`[...contributors].sort(...)`); the second
component of the result is the post-call state of the caller's array, which
this variant leaves untouched.  The `streakData` parameter is unused by the
body, exactly as in the source (the rankings read the contributors' own
`longestStreak` fields). -/
def calculateTop5 (contributors : List Contributor) (commits : List Commit)
    (streakData : StreakData) : Top5 × List Contributor :=
  let sortedByCommits := contributors.insertionSort commitsGe
  let sortedByPrsOpened := contributors.insertionSort openedGe
  let sortedByPrsReviewed := contributors.insertionSort reviewedGe
  let sortedByComments := contributors.insertionSort commentsGe
  let sortedByStreaks := contributors.insertionSort streakGe
  ({ mostCommits :=
       (sortedByCommits.take 5).map fun c => { name := c.name, commits := c.commits }
     mostPullRequestsOpened :=
       (sortedByPrsOpened.take 5).map fun c =>
         { name := c.name, pullRequestsOpened := c.pullRequestsOpened }
     mostPullRequestsReviewed :=
       (sortedByPrsReviewed.take 5).map fun c =>
         { name := c.name, pullRequestsReviewed := c.pullRequestsReviewed }
     mostCommentsWritten :=
       (sortedByComments.take 5).map fun c =>
         { name := c.name, commentsWritten := c.commentsWritten }
     busiestDaysByCommits := busiestDaysOf commits
     longestStreaks :=
       ((sortedByStreaks.filter fun c => decide (0 < c.longestStreak)).take 5).map fun c =>
         { name := c.name, commits := c.longestStreak } },
   contributors)

/-! ## `generateHighlights`

The source pushes template strings; each push is modelled as one tagged entry
carrying the numbers (and, for the peak-productivity entry, the label) that
the template interpolates, so list length and firing conditions are exactly
those of the source. -/

/-- One generated highlight sentence, tagged by its template. -/
inductive Highlight where
  | commitsPushed (n : ℕ)
  | pullRequestsMerged (n : ℕ)
  | codeReviewComments (n : ℕ)
  | filesModified (n : ℕ)
  | bugsSquashedOfTotal (fixed total : ℕ)
  | bugsTracked (n : ℕ)
  | featuresDelivered (n : ℕ)
  | testCasesCreated (n : ℕ)
  | requirementsDocumented (n : ℕ)
  | storyPointsDelivered (points : ℚ)
  | teamMembersContributed (n : ℕ)
  | peakProductivity (label : String) (hour : ℕ)
  | bugsSquashed (n : ℕ)
  | userStoriesCompleted (n : ℕ)
  deriving DecidableEq

/-- `workItemsByType.get(t) || 0`: the count of work items of one type. -/
def countType (wis : List WorkItem) (t : String) : ℕ :=
  wis.countP (fun wi => wi.wiType == t)

/-- `get(a) || get(b) || 0` on the type-count map: a present key always has a
count `≥ 1`, so the JS short-circuit takes the first nonzero count. -/
def jsOrCount (a b : ℕ) : ℕ :=
  if 0 < a then a else b

/-- `workItems.filter(Bug ∧ Done).length`. -/
def bugsFixedCount (wis : List WorkItem) : ℕ :=
  wis.countP (fun wi => wi.wiType == "Bug" && wi.state == "Done")

/-- `workItems.reduce((acc, wi) => acc + (storyPoints || 0), 0)`. -/
def totalStoryPoints (wis : List WorkItem) : ℚ :=
  wis.foldl (fun acc wi => acc + wi.storyPoints.getD 0) 0

/-- `new Set(commits.map(c => c.author.name)).size`. -/
def uniqueContributorCount (commits : List Commit) : ℕ :=
  ((commits.map (fun c => c.authorName)).dedup).length

/-- `generateHighlights` (enhanced variant, azure-devops.ts lines 848–930):
eleven gated templates in source order, truncated by `slice(0, 10)`.  The
peak-productivity guard is JS string truthiness (nonempty). -/
def generateHighlights (commits : List Commit) (prs : List PullRequest) (wis : List WorkItem)
    (prComments : ℕ) (codeChanges : CodeChanges) (activityPattern : ActivityPattern) :
    List Highlight :=
  ((if 0 < commits.length then [Highlight.commitsPushed commits.length] else [])
    ++ (if 0 < prs.length then
          [Highlight.pullRequestsMerged (prs.countP (fun pr => pr.status == "completed"))]
        else [])
    ++ (if 0 < prComments then [Highlight.codeReviewComments prComments] else [])
    ++ (if 0 < codeChanges.linesAdded ∨ 0 < codeChanges.linesDeleted then
          [Highlight.filesModified codeChanges.filesChanged]
        else [])
    ++ (if 0 < bugsFixedCount wis then
          [Highlight.bugsSquashedOfTotal (bugsFixedCount wis) (countType wis "Bug")]
        else if 0 < countType wis "Bug" then [Highlight.bugsTracked (countType wis "Bug")]
        else [])
    ++ (if 0 < jsOrCount (countType wis "Feature") (countType wis "User Story") then
          [Highlight.featuresDelivered
            (jsOrCount (countType wis "Feature") (countType wis "User Story"))]
        else [])
    ++ (if 0 < jsOrCount (countType wis "Test Case") (countType wis "Test Plan") then
          [Highlight.testCasesCreated
            (jsOrCount (countType wis "Test Case") (countType wis "Test Plan"))]
        else [])
    ++ (if 0 < jsOrCount (countType wis "Requirement") (countType wis "SRD") then
          [Highlight.requirementsDocumented
            (jsOrCount (countType wis "Requirement") (countType wis "SRD"))]
        else [])
    ++ (if 0 < totalStoryPoints wis then [Highlight.storyPointsDelivered (totalStoryPoints wis)]
        else [])
    ++ (if 0 < uniqueContributorCount commits then
          [Highlight.teamMembersContributed (uniqueContributorCount commits)]
        else [])
    ++ (if activityPattern.peakProductivityTime ≠ "" then
          [Highlight.peakProductivity activityPattern.peakProductivityTime
            activityPattern.busiestHour]
        else [])).take 10

/-- `generateHighlights` of the `part_001` variant (lines 544–613): nine gated
templates (no file-change or activity-pattern entries), truncated by
`slice(0, 8)`. -/
def generateHighlightsV1 (commits : List Commit) (prs : List PullRequest) (wis : List WorkItem)
    (prComments : ℕ) : List Highlight :=
  ((if 0 < commits.length then [Highlight.commitsPushed commits.length] else [])
    ++ (if 0 < prs.length then
          [Highlight.pullRequestsMerged (prs.countP (fun pr => pr.status == "completed"))]
        else [])
    ++ (if 0 < prComments then [Highlight.codeReviewComments prComments] else [])
    ++ (if 0 < bugsFixedCount wis then
          [Highlight.bugsSquashedOfTotal (bugsFixedCount wis) (countType wis "Bug")]
        else if 0 < countType wis "Bug" then [Highlight.bugsTracked (countType wis "Bug")]
        else [])
    ++ (if 0 < jsOrCount (countType wis "Feature") (countType wis "User Story") then
          [Highlight.featuresDelivered
            (jsOrCount (countType wis "Feature") (countType wis "User Story"))]
        else [])
    ++ (if 0 < jsOrCount (countType wis "Test Case") (countType wis "Test Plan") then
          [Highlight.testCasesCreated
            (jsOrCount (countType wis "Test Case") (countType wis "Test Plan"))]
        else [])
    ++ (if 0 < jsOrCount (countType wis "Requirement") (countType wis "SRD") then
          [Highlight.requirementsDocumented
            (jsOrCount (countType wis "Requirement") (countType wis "SRD"))]
        else [])
    ++ (if 0 < totalStoryPoints wis then [Highlight.storyPointsDelivered (totalStoryPoints wis)]
        else [])
    ++ (if 0 < uniqueContributorCount commits then
          [Highlight.teamMembersContributed (uniqueContributorCount commits)]
        else [])).take 8

/-- `generateHighlights` of the `part_009` variant (lines 405–447): six gated
templates, truncated by `slice(0, 6)`. -/
def generateHighlightsV9 (commits : List Commit) (prs : List PullRequest)
    (wis : List WorkItem) : List Highlight :=
  ((if 0 < commits.length then [Highlight.commitsPushed commits.length] else [])
    ++ (if 0 < prs.length then
          [Highlight.pullRequestsMerged (prs.countP (fun pr => pr.status == "completed"))]
        else [])
    ++ (if 0 < bugsFixedCount wis then [Highlight.bugsSquashed (bugsFixedCount wis)] else [])
    ++ (if 0 < totalStoryPoints wis then [Highlight.storyPointsDelivered (totalStoryPoints wis)]
        else [])
    ++ (if 0 < uniqueContributorCount commits then
          [Highlight.teamMembersContributed (uniqueContributorCount commits)]
        else [])
    ++ (if 0 < wis.countP (fun wi => wi.wiType == "User Story") then
          [Highlight.userStoriesCompleted (wis.countP (fun wi => wi.wiType == "User Story"))]
        else [])).take 6

/-! ## `generateMilestones` -/

/-- Placeholder for the unreachable empty-list lookups below (the source only
indexes `sortedCommits` under a `commits.length > 0` guard). -/
def defaultCommit : Commit :=
  { commitId := ""
    authorName := ""
    authorEmail := ""
    dateDay := 0
    dateMs := 0
    dateHour := 0
    dateDow := 0
    comment := "" }

/-- `generateMilestones` (azure-devops.ts lines 1029–1088).  The `workItems`
parameter is unused, as in the source.  The first-commit description is
`comment?.substring(0, 50) || "Initial commit"`: the `comment` field is always
present, so the fallback fires exactly for the empty string. -/
def generateMilestones (commits : List Commit) (prs : List PullRequest) (wis : List WorkItem)
    (dateFrom dateTo : Option ℕ) : List Milestone :=
  let ms1 : List Milestone :=
    match dateFrom with
    | some d =>
      [{ date := d, title := "Period Start",
         description := "Beginning of the tracking period", icon := "rocket" }]
    | none => []
  let ms2 : List Milestone :=
    if 0 < commits.length then
      let sortedCommits := commits.insertionSort commitMsLe
      let first := sortedCommits.headD defaultCommit
      let firstDesc := if first.comment.take 50 == "" then "Initial commit"
        else first.comment.take 50
      let midIndex := sortedCommits.length / 2
      let mid := sortedCommits.getD midIndex defaultCommit
      [{ date := first.dateDay, title := "First Commit", description := firstDesc,
         icon := "lightbulb" },
       { date := mid.dateDay, title := "Halfway Point",
         description := toString midIndex ++ " commits so far", icon := "flag" }]
    else []
  let ms3 : List Milestone :=
    match dateTo with
    | some d =>
      if 100 ≤ prs.length then
        [{ date := d, title := "100 PRs Milestone",
           description := "Team collaboration at scale", icon := "party" }]
      else []
    | none => []
  let ms4 : List Milestone :=
    match dateTo with
    | some d =>
      [{ date := d, title := "Period End", description := "End of tracking period",
         icon := "lock" }]
    | none => []
  (ms1 ++ ms2 ++ ms3 ++ ms4).insertionSort milestoneDateLe

/-! ## `totalStats.sprintsCompleted` -/

/-- `sprintsCompleted` of the assembled stats block (azure-devops.ts line 177):
`dateFrom && dateTo ? Math.floor((to - from) / (14 days in ms)) : 0`, with the
date strings parsed to UTC midnight, so their `getTime()` values are the day
indices times 86400000.  `Math.floor` on the (possibly negative) quotient is
`Int.fdiv`. -/
def sprintsCompleted (dateFrom dateTo : Option ℕ) : ℤ :=
  match dateFrom, dateTo with
  | some f, some t =>
    Int.fdiv ((t : ℤ) * 86400000 - (f : ℤ) * 86400000) (14 * 24 * 60 * 60 * 1000)
  | _, _ => 0

/-! ## The `part_001` variant of the aggregator and `calculateTop5`

The `part_001` `Contributor` records carry only the first seven fields; the
enhanced-only fields are kept at the `blank` value 0 and never read by the
variant's code. -/

/-- `part_001` commit-loop iteration (lines 422–436). -/
def commitStepV1 (m : List Contributor) (c : Commit) : List Contributor :=
  let m1 := if hasName m c.authorName then m else m ++ [blank c.authorName]
  updateFirstBy (fun x => x.name == c.authorName)
    (fun x => { x with commits := x.commits + 1 }) m1

/-- `part_001` reviewer-loop iteration. -/
def reviewerStepV1 (m : List Contributor) (r : Reviewer) : List Contributor :=
  let m1 := if hasName m r.displayName then m else m ++ [blank r.displayName]
  updateFirstBy (fun x => x.name == r.displayName)
    (fun x => { x with pullRequestsReviewed := x.pullRequestsReviewed + 1 }) m1

/-- `part_001` PR-loop iteration (lines 438–467). -/
def prStepV1 (m : List Contributor) (pr : PullRequest) : List Contributor :=
  let m1 := if hasName m pr.createdByName then m else m ++ [blank pr.createdByName]
  let m2 := updateFirstBy (fun x => x.name == pr.createdByName)
    (fun x => { x with pullRequestsOpened := x.pullRequestsOpened + 1 }) m1
  pr.reviewers.foldl reviewerStepV1 m2

/-- The `part_001` contributor map after the three loops (its work-item loop
is identical to the enhanced one). -/
def contributorMapFullV1 (commits : List Commit) (prs : List PullRequest)
    (wis : List WorkItem) : List Contributor :=
  wis.foldl wiStep (prs.foldl prStepV1 (commits.foldl commitStepV1 []))

/-- `aggregateContributorStats` of `part_001` (lines 415–482). -/
def aggregateContributorStatsV1 (commits : List Commit) (prs : List PullRequest)
    (wis : List WorkItem) : List Contributor :=
  ((contributorMapFullV1 commits prs wis).insertionSort commitsGe).take 10

/-- `calculateTop5` of `part_001` (lines 511–542): the four ranking sorts are
applied to the caller's array itself (`contributors.sort(...)`, no copy), one
after another; the second component is the post-call state of that array —
the result of the fourth (comments) sort. -/
def calculateTop5V1 (contributors : List Contributor) (commits : List Commit) :
    Top5 × List Contributor :=
  let s1 := contributors.insertionSort commitsGe
  let s2 := s1.insertionSort openedGe
  let s3 := s2.insertionSort reviewedGe
  let s4 := s3.insertionSort commentsGe
  ({ mostCommits := (s1.take 5).map fun c => { name := c.name, commits := c.commits }
     mostPullRequestsOpened :=
       (s2.take 5).map fun c => { name := c.name, pullRequestsOpened := c.pullRequestsOpened }
     mostPullRequestsReviewed :=
       (s3.take 5).map fun c =>
         { name := c.name, pullRequestsReviewed := c.pullRequestsReviewed }
     mostCommentsWritten :=
       (s4.take 5).map fun c => { name := c.name, commentsWritten := c.commentsWritten }
     busiestDaysByCommits := busiestDaysOf commits
     longestStreaks := [] },
   s4)

/-! ## The `contributors` field of the assembled summary document -/

/-- Enhanced pipeline (azure-devops.ts lines 155–211): `contributorStats` is
computed, `calculateTop5` sorts copies, and the summary stores
`contributorStats` itself. -/
def summaryContributors (commits : List Commit) (prs : List PullRequest)
    (wis : List WorkItem) : List Contributor :=
  let contributorStats := aggregateContributorStats commits prs wis
    (calculatePrMergeStats prs).mergeTimeByAuthor (calculateStreaks commits).streaksByAuthor
  (calculateTop5 contributorStats commits (calculateStreaks commits)).2

/-- `part_001` pipeline (lines 142–168): `calculateTop5` re-sorts the
`contributorStats` array in place before the summary stores it. -/
def summaryContributorsV1 (commits : List Commit) (prs : List PullRequest)
    (wis : List WorkItem) : List Contributor :=
  (calculateTop5V1 (aggregateContributorStatsV1 commits prs wis) commits).2

/-! ## Specification-side definitions used by the theorems -/

/-- Total of the per-contributor commit counts of a contributor map. -/
def sumCommits (m : List Contributor) : ℕ :=
  (m.map (fun c => c.commits)).sum

/-- The contributor map keys are pairwise distinct (an invariant of every map
the pipeline builds, since entries are created only on a failed `has` test). -/
def nodupNames (m : List Contributor) : Prop :=
  (m.map (fun c => c.name)).Nodup

/-- Length of the longest prefix of `l` that extends a run of consecutive
days ending at `p` (specification-side companion of the streak walk). -/
def consecFrom : ℕ → List ℕ → ℕ
  | _, [] => 0
  | p, d :: rest => if d = p + 1 then 1 + consecFrom d rest else 0

/-- Length of the longest contiguous run of calendar-consecutive days in `l`
(specification-side meaning of "longest streak" over the sorted date list). -/
def maxRun : List ℕ → ℕ
  | [] => 0
  | d :: rest => max (1 + consecFrom d rest) (maxRun rest)

/-! ## Concrete inputs for the instance parts of the claims -/

/-- Build a commit whose timestamp fields are coherent (`dateMs` is UTC
midnight of `dateDay` plus the hour). -/
def mkCommit (id author : String) (day : ℕ) (hour : Fin 24) (dow : Fin 7)
    (msg : String) : Commit :=
  { commitId := id
    authorName := author
    authorEmail := author ++ "@example.com"
    dateDay := day
    dateMs := day * 86400000 + 3600000 * hour.val
    dateHour := hour
    dateDow := dow
    comment := msg }

/-- Commits by one author on exactly three consecutive calendar days. -/
def c4commits1 : List Commit :=
  [mkCommit "s1" "Ana" 100 9 1 "day one",
   mkCommit "s2" "Ana" 101 10 2 "day two",
   mkCommit "s3" "Ana" 102 11 3 "day three"]

/-- Commits by one author on days 1, 2 and 4 of a run (non-consecutive). -/
def c4commits2 : List Commit :=
  [mkCommit "t1" "Ana" 100 9 1 "day one",
   mkCommit "t2" "Ana" 101 10 2 "day two",
   mkCommit "t3" "Ana" 103 11 4 "day four"]

/-- A one-element contributor map for the work-item step instance. -/
def c3map : List Contributor :=
  [blank "Alice"]

/-- A closed Bug work item assigned to a known contributor. -/
def c3wi : WorkItem :=
  { id := 7
    title := "fix crash"
    wiType := "Bug"
    state := "Done"
    assignedTo := some "Alice"
    storyPoints := some 3
    createdDay := 100
    areaPath := none }

/-- Input firing nine-plus highlight templates in the enhanced variant. -/
def c5commits : List Commit :=
  [mkCommit "h1" "Alice" 200 10 1 "initial work"]

def c5prs : List PullRequest :=
  [{ pullRequestId := 1
     title := "feature"
     status := "completed"
     createdByName := "Alice"
     creationMs := 0
     closedMs := some 3600000
     reviewers := [] }]

def c5wis : List WorkItem :=
  [{ id := 1, title := "b", wiType := "Bug", state := "Done",
     assignedTo := some "Alice", storyPoints := some 3, createdDay := 200, areaPath := none },
   { id := 2, title := "f", wiType := "Feature", state := "Active",
     assignedTo := none, storyPoints := none, createdDay := 200, areaPath := none },
   { id := 3, title := "t", wiType := "Test Case", state := "Active",
     assignedTo := none, storyPoints := none, createdDay := 200, areaPath := none },
   { id := 4, title := "r", wiType := "Requirement", state := "Active",
     assignedTo := none, storyPoints := none, createdDay := 200, areaPath := none }]

def c5codeChanges : CodeChanges :=
  { linesAdded := 10, linesDeleted := 0, filesChanged := 2 }

/-- The three commits of the milestone-ordering instance (2024-02-01,
2024-06-01, 2024-11-01). -/
def c6commits : List Commit :=
  [mkCommit "m1" "Ana" (toEpochDay 2024 2 1) 9 4 "february work",
   mkCommit "m2" "Ana" (toEpochDay 2024 6 1) 10 6 "june work",
   mkCommit "m3" "Ana" (toEpochDay 2024 11 1) 11 5 "november work"]

/-- Commits for the summary-mutation instance: Alice has two commits, Bob one. -/
def c7commits : List Commit :=
  [mkCommit "a1" "Alice" 100 10 1 "one",
   mkCommit "a2" "Alice" 101 10 2 "two",
   mkCommit "b1" "Bob" 100 11 1 "three"]

/-- A pull request opened by Alice and reviewed by Bob, so that the
PRs-reviewed ranking order differs from the commit-count order. -/
def c7prs : List PullRequest :=
  [{ pullRequestId := 1
     title := "pr"
     status := "active"
     createdByName := "Alice"
     creationMs := 0
     closedMs := none
     reviewers := [{ displayName := "Bob", vote := 10 }] }]

/-- A single commit, for the comments-are-zero witness. -/
def c9commits : List Commit :=
  [mkCommit "w1" "Alice" 100 10 1 "m"]

/-! ## Generic helper lemmas -/

/-- Membership in a truncation that keeps the whole list. -/
theorem mem_take_of_length_le {α : Type} {l : List α} {x : α} {n : ℕ}
    (hx : x ∈ l) (h : l.length ≤ n) : x ∈ l.take n := by
  rw [List.take_of_length_le h]; exact hx

/-- C8: `sprintsCompleted` equals the floor of the day-range divided by 14 when
both bounds are supplied (a 28-day range giving 2), and is 0 when either bound
is absent. -/
theorem c8_sprints_completed :
    (∀ f t : ℕ, sprintsCompleted (some f) (some t) = Int.fdiv ((t : ℤ) - (f : ℤ)) 14) ∧
    (∀ d : Option ℕ, sprintsCompleted none d = 0) ∧
    (∀ d : Option ℕ, sprintsCompleted d none = 0) ∧
    sprintsCompleted (some (toEpochDay 2024 1 1)) (some (toEpochDay 2024 1 29)) = 2 := by
  refine ⟨?_, ?_, ?_, ?_⟩
  · intro f t
    show Int.fdiv ((t : ℤ) * 86400000 - (f : ℤ) * 86400000) (14 * 24 * 60 * 60 * 1000) = _
    have h1 : (t : ℤ) * 86400000 - (f : ℤ) * 86400000 = 86400000 * ((t : ℤ) - (f : ℤ)) := by
      ring
    have h2 : (14 * 24 * 60 * 60 * 1000 : ℤ) = 86400000 * 14 := by norm_num
    rw [h1, h2, Int.fdiv_eq_ediv _ (by norm_num), Int.fdiv_eq_ediv _ (by norm_num),
      Int.mul_ediv_mul_of_pos _ _ (by norm_num)]
  · intro d; cases d <;> rfl
  · intro d; cases d <;> rfl
  · decide

/-- C5 (amended): the highlights list is capped at 10 entries in the enhanced
variant, 8 in the `part_001` variant, and 6 in the `part_009` variant. -/
theorem c5_highlight_caps (commits : List Commit) (prs : List PullRequest) (wis : List WorkItem)
    (prComments : ℕ) (codeChanges : CodeChanges) (ap : ActivityPattern) :
    (generateHighlights commits prs wis prComments codeChanges ap).length ≤ 10 ∧
    (generateHighlightsV1 commits prs wis prComments).length ≤ 8 ∧
    (generateHighlightsV9 commits prs wis).length ≤ 6 :=
  ⟨List.length_take_le _ _, List.length_take_le _ _, List.length_take_le _ _⟩

/-- C5 counterexample: a concrete input on which the enhanced variant returns
more than 8 highlights (it returns 10), refuting the claimed cap of 8. -/
theorem c5_cap_counterexample :
    ¬ ((generateHighlights c5commits c5prs c5wis 5 c5codeChanges
        (calculateActivityPattern c5commits)).length ≤ 8) := by
  have hsp : (0 : ℚ) < totalStoryPoints c5wis := by
    simp [totalStoryPoints, c5wis, List.foldl]
  unfold generateHighlights
  rw [if_pos hsp]
  decide

/-- A block of the highlight checklist contributes at most one entry. -/
theorem length_ite_le {α : Type} (c : Prop) [Decidable c] (x : α) :
    (if c then [x] else []).length ≤ 1 := by
  split <;> simp

/-- The two-armed bug block contributes at most one entry. -/
theorem length_ite2_le {α : Type} (c d : Prop) [Decidable c] [Decidable d] (x y : α) :
    (if c then [x] else if d then [y] else []).length ≤ 1 := by
  split
  · simp
  · exact length_ite_le d y

/-- Length bound for the eleven-block highlight checklist when the first and
tenth blocks are silent. -/
theorem len11 {α : Type} (b1 b2 b3 b4 b5 b6 b7 b8 b9 b10 b11 : List α)
    (h1 : b1.length = 0) (h2 : b2.length ≤ 1) (h3 : b3.length ≤ 1) (h4 : b4.length ≤ 1)
    (h5 : b5.length ≤ 1) (h6 : b6.length ≤ 1) (h7 : b7.length ≤ 1) (h8 : b8.length ≤ 1)
    (h9 : b9.length ≤ 1) (h10 : b10.length = 0) (h11 : b11.length ≤ 1) :
    (b1 ++ b2 ++ b3 ++ b4 ++ b5 ++ b6 ++ b7 ++ b8 ++ b9 ++ b10 ++ b11).length ≤ 10 := by
  simp only [List.length_append]
  omega

/-- C6: every generated milestone list is sorted ascending by date; on the
2024-01-01..2024-12-31 range with commits on 2024-02-01, 2024-06-01 and
2024-11-01 (and fewer than 100 pull requests) the list runs Period Start,
First Commit, Halfway Point, Period End, strictly ascending by date. -/
theorem c6_milestones_sorted (commits : List Commit) (prs : List PullRequest)
    (wis : List WorkItem) (dateFrom dateTo : Option ℕ) :
    (generateMilestones commits prs wis dateFrom dateTo).Sorted milestoneDateLe ∧
    ((generateMilestones c6commits [] [] (some (toEpochDay 2024 1 1))
        (some (toEpochDay 2024 12 31))).map (fun m => (m.title, m.date)) =
      [("Period Start", toEpochDay 2024 1 1), ("First Commit", toEpochDay 2024 2 1),
       ("Halfway Point", toEpochDay 2024 6 1), ("Period End", toEpochDay 2024 12 31)]) ∧
    (generateMilestones c6commits [] [] (some (toEpochDay 2024 1 1))
        (some (toEpochDay 2024 12 31))).Pairwise (fun a b => a.date < b.date) :=
  ⟨List.sorted_insertionSort milestoneDateLe _, by decide, by decide⟩

/-- C10: on the empty commit list the activity pattern resolves to hour 0,
"Sunday" and "Night" (the max scan of all-zero histograms yields index 0), and
the enhanced `generateHighlights` still emits the peak-productivity entry for
any values of its other inputs. -/
theorem c10_empty_commits_pattern :
    calculateActivityPattern [] =
      { hourlyDistribution := List.replicate 24 0
        dailyDistribution := List.replicate 7 0
        busiestHour := 0
        busiestDay := "Sunday"
        peakProductivityTime := "Night" } ∧
    ∀ (prs : List PullRequest) (wis : List WorkItem) (prComments : ℕ) (cc : CodeChanges),
      Highlight.peakProductivity "Night" 0 ∈
        generateHighlights [] prs wis prComments cc (calculateActivityPattern []) := by
  have hap : calculateActivityPattern ([] : List Commit) =
      { hourlyDistribution := List.replicate 24 0
        dailyDistribution := List.replicate 7 0
        busiestHour := 0
        busiestDay := "Sunday"
        peakProductivityTime := "Night" } := by decide
  refine ⟨hap, ?_⟩
  intro prs wis prComments cc
  rw [hap]
  unfold generateHighlights
  apply mem_take_of_length_le
  · apply List.mem_append_right
    split
    · exact List.mem_singleton_self _
    · next h => exact absurd (by decide) h
  · exact len11 _ _ _ _ _ _ _ _ _ _ _ (by decide) (length_ite_le _ _) (length_ite_le _ _)
      (length_ite_le _ _) (length_ite2_le _ _ _ _) (length_ite_le _ _) (length_ite_le _ _)
      (length_ite_le _ _) (length_ite_le _ _) (by decide) (length_ite_le _ _)

/-- C2: the enhanced `calculateTop5` most-commits ranking, fed the top-10
truncation the pipeline hands it, equals the first five entries of the full
contributor list sorted descending by commit count — in particular it is (the
projection of) a subsequence of that full sorted list, and its length is
`min 5 (number of contributors)`. -/
theorem c2_top5_most_commits (commits : List Commit) (prs : List PullRequest)
    (wis : List WorkItem) (pm : List (String × List ℚ)) (sd : List (String × ℕ))
    (sdata : StreakData) :
    (calculateTop5 (aggregateContributorStats commits prs wis pm sd) commits sdata).1.mostCommits =
      ((((contributorMapFull commits prs wis pm sd).insertionSort commitsGe).take 5).map
        (fun c => { name := c.name, commits := c.commits : NameCommits })) ∧
    (∃ l, List.Sublist l ((contributorMapFull commits prs wis pm sd).insertionSort commitsGe) ∧
      (calculateTop5 (aggregateContributorStats commits prs wis pm sd) commits sdata).1.mostCommits
        = l.map (fun c => { name := c.name, commits := c.commits : NameCommits })) ∧
    (calculateTop5 (aggregateContributorStats commits prs wis pm sd) commits
        sdata).1.mostCommits.length = min 5 (contributorMapFull commits prs wis pm sd).length := by
  have hfull : List.Sorted commitsGe
      ((contributorMapFull commits prs wis pm sd).insertionSort commitsGe) :=
    List.sorted_insertionSort _ _
  have h10 : List.Sorted commitsGe
      (((contributorMapFull commits prs wis pm sd).insertionSort commitsGe).take 10) :=
    List.Pairwise.sublist (List.take_sublist _ _) hfull
  have hkey : (calculateTop5 (aggregateContributorStats commits prs wis pm sd) commits
      sdata).1.mostCommits =
      ((((contributorMapFull commits prs wis pm sd).insertionSort commitsGe).take 5).map
        (fun c => { name := c.name, commits := c.commits : NameCommits })) := by
    simp only [calculateTop5, aggregateContributorStats]
    rw [h10.insertionSort_eq, List.take_take]
    norm_num
  refine ⟨hkey, ⟨_, List.take_sublist _ _, hkey⟩, ?_⟩
  rw [hkey]
  simp [List.length_take, List.length_insertionSort]

/-- C7 (amended): the enhanced pipeline's summary contributor list is the
top 10 by commit count in descending order and the enhanced `calculateTop5`
leaves its input array unchanged (it sorts spread copies); in the `part_001`
variant `calculateTop5` re-sorts the caller's array in place, so that summary
list is only a permutation of the descending top 10. -/
theorem c7_summary_contributor_list (commits : List Commit) (prs : List PullRequest)
    (wis : List WorkItem) :
    (summaryContributors commits prs wis =
      ((contributorMapFull commits prs wis (calculatePrMergeStats prs).mergeTimeByAuthor
        (calculateStreaks commits).streaksByAuthor).insertionSort commitsGe).take 10) ∧
    (summaryContributors commits prs wis).Sorted commitsGe ∧
    (∀ (cs : List Contributor) (cl : List Commit) (sdata : StreakData),
      (calculateTop5 cs cl sdata).2 = cs) ∧
    (summaryContributorsV1 commits prs wis).Perm
      (((contributorMapFullV1 commits prs wis).insertionSort commitsGe).take 10) := by
  refine ⟨rfl, ?_, fun cs cl sdata => rfl, ?_⟩
  · exact List.Pairwise.sublist (List.take_sublist _ _) (List.sorted_insertionSort _ _)
  · exact (List.perm_insertionSort commentsGe _).trans
      ((List.perm_insertionSort reviewedGe _).trans
        ((List.perm_insertionSort openedGe _).trans (List.perm_insertionSort commitsGe _)))

/-- C7 counterexample: with Alice (2 commits, PR author) and Bob (1 commit,
PR reviewer), the `part_001` pipeline's summary contributor list comes out
ordered [1, 2] by commits — not the descending top-10 list the claim states
(the in-place ranking sorts left it ordered by PRs reviewed). -/
theorem c7_summary_counterexample :
    ((summaryContributorsV1 c7commits c7prs []).map (fun c => c.commits) = [1, 2]) ∧
    ¬ (summaryContributorsV1 c7commits c7prs [] =
        ((contributorMapFullV1 c7commits c7prs []).insertionSort commitsGe).take 10) := by
  decide

/-! ## C1: commit counts in the aggregate map sum to the commit-list length -/

theorem sumCommits_cons (c : Contributor) (m : List Contributor) :
    sumCommits (c :: m) = c.commits + sumCommits m := by
  simp [sumCommits]

theorem sumCommits_append (m1 m2 : List Contributor) :
    sumCommits (m1 ++ m2) = sumCommits m1 + sumCommits m2 := by
  simp [sumCommits]

theorem sumCommits_updateFirstBy_preserve (p : Contributor → Bool)
    (f : Contributor → Contributor) (hf : ∀ c, (f c).commits = c.commits)
    (m : List Contributor) :
    sumCommits (updateFirstBy p f m) = sumCommits m := by
  induction m with
  | nil => rfl
  | cons c rest ih =>
    simp only [updateFirstBy]
    split
    · rw [sumCommits_cons, sumCommits_cons, hf]
    · rw [sumCommits_cons, sumCommits_cons, ih]

theorem sumCommits_updateFirstBy_inc (p : Contributor → Bool) (m : List Contributor)
    (hp : m.any p = true) :
    sumCommits (updateFirstBy p (fun x => { x with commits := x.commits + 1 }) m)
      = sumCommits m + 1 := by
  induction m with
  | nil => simp at hp
  | cons c rest ih =>
    simp only [updateFirstBy]
    by_cases h : p c
    · rw [if_pos h, sumCommits_cons, sumCommits_cons]
      simp only []
      omega
    · rw [if_neg h, sumCommits_cons, sumCommits_cons]
      have hrest : rest.any p = true := by
        rcases List.any_eq_true.mp hp with ⟨x, hx, hpx⟩
        rcases List.mem_cons.mp hx with rfl | hx'
        · exact absurd hpx (by simp [h])
        · exact List.any_eq_true.mpr ⟨x, hx', hpx⟩
      rw [ih hrest]
      omega

theorem hasName_append_blank (m : List Contributor) (n : String) :
    hasName (m ++ [blank n]) n = true := by
  simp [hasName, blank]

theorem hasName_ensure (st : AggState) (n : String) :
    hasName (ensureContributor st n).contributorMap n = true := by
  unfold ensureContributor
  split
  · assumption
  · exact hasName_append_blank _ _

theorem sumCommits_ensure (st : AggState) (n : String) :
    sumCommits (ensureContributor st n).contributorMap = sumCommits st.contributorMap := by
  unfold ensureContributor
  split
  · rfl
  · rw [sumCommits_append]
    simp [sumCommits, blank]

theorem sumCommits_commitStep (st : AggState) (c : Commit) :
    sumCommits (commitStep st c).contributorMap = sumCommits st.contributorMap + 1 := by
  unfold commitStep
  rw [sumCommits_updateFirstBy_inc _ _ (hasName_ensure st c.authorName),
    sumCommits_ensure]

theorem sumCommits_foldl_commitStep (l : List Commit) (st : AggState) :
    sumCommits (l.foldl commitStep st).contributorMap
      = sumCommits st.contributorMap + l.length := by
  induction l generalizing st with
  | nil => rfl
  | cons c rest ih =>
    rw [List.foldl_cons, ih, sumCommits_commitStep, List.length_cons]
    omega

theorem sumCommits_reviewerStep (st : AggState) (r : Reviewer) :
    sumCommits (reviewerStep st r).contributorMap = sumCommits st.contributorMap := by
  simp only [reviewerStep]
  rw [sumCommits_updateFirstBy_preserve, sumCommits_ensure]
  intro c
  rfl

theorem sumCommits_foldl_reviewerStep (rs : List Reviewer) (st : AggState) :
    sumCommits (rs.foldl reviewerStep st).contributorMap = sumCommits st.contributorMap := by
  induction rs generalizing st with
  | nil => rfl
  | cons r rest ih => rw [List.foldl_cons, ih, sumCommits_reviewerStep]

theorem sumCommits_prStep (st : AggState) (pr : PullRequest) :
    sumCommits (prStep st pr).contributorMap = sumCommits st.contributorMap := by
  unfold prStep
  rw [sumCommits_foldl_reviewerStep]
  dsimp only
  rw [sumCommits_updateFirstBy_preserve, sumCommits_ensure]
  intro c
  rfl

theorem sumCommits_foldl_prStep (ps : List PullRequest) (st : AggState) :
    sumCommits (ps.foldl prStep st).contributorMap = sumCommits st.contributorMap := by
  induction ps generalizing st with
  | nil => rfl
  | cons p rest ih => rw [List.foldl_cons, ih, sumCommits_prStep]

theorem sumCommits_wiStep (m : List Contributor) (wi : WorkItem) :
    sumCommits (wiStep m wi) = sumCommits m := by
  unfold wiStep
  split
  · rfl
  · split
    · dsimp only
      rw [sumCommits_updateFirstBy_preserve]
      · split
        · rw [sumCommits_updateFirstBy_preserve]
          intro c
          rfl
        · rfl
      · intro c
        rfl
    · rfl

theorem sumCommits_foldl_wiStep (ws : List WorkItem) (m : List Contributor) :
    sumCommits (ws.foldl wiStep m) = sumCommits m := by
  induction ws generalizing m with
  | nil => rfl
  | cons w rest ih => rw [List.foldl_cons, ih, sumCommits_wiStep]

theorem finalize_commits (pm : List (String × List ℚ)) (sd : List (String × ℕ))
    (hm : List (String × List ℕ)) (c : Contributor) :
    (finalizeContributor pm sd hm c).commits = c.commits := by
  unfold finalizeContributor
  repeat' split
  all_goals rfl

theorem sumCommits_map_finalize (pm : List (String × List ℚ)) (sd : List (String × ℕ))
    (hm : List (String × List ℕ)) (m : List Contributor) :
    sumCommits (m.map (finalizeContributor pm sd hm)) = sumCommits m := by
  induction m with
  | nil => rfl
  | cons c rest ih =>
    rw [List.map_cons, sumCommits_cons, sumCommits_cons, ih, finalize_commits]

/-- C1: for every input, the per-contributor commit counts in the aggregate
contributor map built by `aggregateContributorStats` sum to the length of the
input commit list: each commit increments exactly one author's count, and the
PR, work-item and finalize phases never change a commit count. -/
theorem c1_commit_counts_sum (commits : List Commit) (prs : List PullRequest) (wis : List WorkItem)
    (pm : List (String × List ℚ)) (sd : List (String × ℕ)) :
    sumCommits (contributorMapFull commits prs wis pm sd) = commits.length := by
  unfold contributorMapFull
  rw [sumCommits_map_finalize, sumCommits_foldl_wiStep, sumCommits_foldl_prStep,
    sumCommits_foldl_commitStep]
  simp [sumCommits]


/-! ## C9: comments-written is never incremented -/

theorem mem_updateFirstBy {α : Type} {P : α → Prop} (p : α → Bool) (f : α → α)
    (hf : ∀ x, P x → P (f x)) {m : List α} (hm : ∀ x ∈ m, P x) :
    ∀ x ∈ updateFirstBy p f m, P x := by
  induction m with
  | nil => simp [updateFirstBy]
  | cons c rest ih =>
    simp only [updateFirstBy]
    split
    · intro x hx
      rcases List.mem_cons.mp hx with rfl | h
      · exact hf c (hm c (List.mem_cons_self c rest))
      · exact hm x (List.mem_cons_of_mem _ h)
    · intro x hx
      rcases List.mem_cons.mp hx with rfl | h
      · exact hm x (List.mem_cons_self _ _)
      · exact ih (fun y hy => hm y (List.mem_cons_of_mem _ hy)) x h

theorem commentsZero_ensure (st : AggState) (n : String)
    (hm : ∀ x ∈ st.contributorMap, x.commentsWritten = 0) :
    ∀ x ∈ (ensureContributor st n).contributorMap, x.commentsWritten = 0 := by
  unfold ensureContributor
  split
  · exact hm
  · intro x hx
    rcases List.mem_append.mp hx with h | h
    · exact hm x h
    · rcases List.mem_singleton.mp h with rfl
      rfl

theorem commentsZero_commitStep (st : AggState) (c : Commit)
    (hm : ∀ x ∈ st.contributorMap, x.commentsWritten = 0) :
    ∀ x ∈ (commitStep st c).contributorMap, x.commentsWritten = 0 := by
  unfold commitStep
  dsimp only
  refine mem_updateFirstBy _ _ ?_ (commentsZero_ensure st c.authorName hm)
  intro x hx
  exact hx

theorem commentsZero_foldl_commitStep (l : List Commit) (st : AggState)
    (hm : ∀ x ∈ st.contributorMap, x.commentsWritten = 0) :
    ∀ x ∈ (l.foldl commitStep st).contributorMap, x.commentsWritten = 0 := by
  induction l generalizing st with
  | nil => exact hm
  | cons c rest ih =>
    rw [List.foldl_cons]
    exact ih _ (commentsZero_commitStep st c hm)

theorem commentsZero_reviewerStep (st : AggState) (r : Reviewer)
    (hm : ∀ x ∈ st.contributorMap, x.commentsWritten = 0) :
    ∀ x ∈ (reviewerStep st r).contributorMap, x.commentsWritten = 0 := by
  simp only [reviewerStep]
  refine mem_updateFirstBy _ _ ?_ (commentsZero_ensure st r.displayName hm)
  intro x hx
  exact hx

theorem commentsZero_foldl_reviewerStep (rs : List Reviewer) (st : AggState)
    (hm : ∀ x ∈ st.contributorMap, x.commentsWritten = 0) :
    ∀ x ∈ (rs.foldl reviewerStep st).contributorMap, x.commentsWritten = 0 := by
  induction rs generalizing st with
  | nil => exact hm
  | cons r rest ih =>
    rw [List.foldl_cons]
    exact ih _ (commentsZero_reviewerStep st r hm)

theorem commentsZero_prStep (st : AggState) (pr : PullRequest)
    (hm : ∀ x ∈ st.contributorMap, x.commentsWritten = 0) :
    ∀ x ∈ (prStep st pr).contributorMap, x.commentsWritten = 0 := by
  unfold prStep
  dsimp only
  apply commentsZero_foldl_reviewerStep
  refine mem_updateFirstBy _ _ ?_ (commentsZero_ensure st pr.createdByName hm)
  intro x hx
  exact hx

theorem commentsZero_foldl_prStep (ps : List PullRequest) (st : AggState)
    (hm : ∀ x ∈ st.contributorMap, x.commentsWritten = 0) :
    ∀ x ∈ (ps.foldl prStep st).contributorMap, x.commentsWritten = 0 := by
  induction ps generalizing st with
  | nil => exact hm
  | cons p rest ih =>
    rw [List.foldl_cons]
    exact ih _ (commentsZero_prStep st p hm)

theorem commentsZero_wiStep (m : List Contributor) (wi : WorkItem)
    (hm : ∀ x ∈ m, x.commentsWritten = 0) :
    ∀ x ∈ wiStep m wi, x.commentsWritten = 0 := by
  unfold wiStep
  split
  · exact hm
  · split
    · dsimp only
      refine mem_updateFirstBy _ _ ?_ ?_
      · intro x hx
        exact hx
      · split
        · refine mem_updateFirstBy _ _ ?_ hm
          intro x hx
          exact hx
        · exact hm
    · exact hm

theorem commentsZero_foldl_wiStep (ws : List WorkItem) (m : List Contributor)
    (hm : ∀ x ∈ m, x.commentsWritten = 0) :
    ∀ x ∈ ws.foldl wiStep m, x.commentsWritten = 0 := by
  induction ws generalizing m with
  | nil => exact hm
  | cons w rest ih =>
    rw [List.foldl_cons]
    exact ih _ (commentsZero_wiStep m w hm)

theorem finalize_commentsWritten (pm : List (String × List ℚ)) (sd : List (String × ℕ))
    (hm : List (String × List ℕ)) (c : Contributor) :
    (finalizeContributor pm sd hm c).commentsWritten = c.commentsWritten := by
  unfold finalizeContributor
  repeat' split
  all_goals rfl

/-- C9: every contributor record produced by `aggregateContributorStats` has
`commentsWritten = 0` (no pipeline step ever increments it), so every entry of
the `mostCommentsWritten` top-5 ranking carries the count 0. -/
theorem c9_comments_always_zero (commits : List Commit) (prs : List PullRequest) (wis : List WorkItem)
    (pm : List (String × List ℚ)) (sd : List (String × ℕ)) (sdata : StreakData) :
    (∀ c ∈ aggregateContributorStats commits prs wis pm sd, c.commentsWritten = 0) ∧
    (∀ e ∈ (calculateTop5 (aggregateContributorStats commits prs wis pm sd) commits
        sdata).1.mostCommentsWritten, e.commentsWritten = 0) := by
  have hfull : ∀ c ∈ contributorMapFull commits prs wis pm sd, c.commentsWritten = 0 := by
    unfold contributorMapFull
    intro x hx
    rcases List.mem_map.mp hx with ⟨c, hc, rfl⟩
    rw [finalize_commentsWritten]
    refine commentsZero_foldl_wiStep _ _ ?_ c hc
    refine commentsZero_foldl_prStep _ _ ?_
    refine commentsZero_foldl_commitStep _ _ ?_
    intro y hy
    simp at hy
  have hagg : ∀ c ∈ aggregateContributorStats commits prs wis pm sd, c.commentsWritten = 0 := by
    intro c hc
    exact hfull c ((List.mem_insertionSort _).mp (List.mem_of_mem_take hc))
  refine ⟨hagg, ?_⟩
  intro e he
  simp only [calculateTop5] at he
  rcases List.mem_map.mp he with ⟨c, hc, rfl⟩
  exact hagg c ((List.mem_insertionSort _).mp (List.mem_of_mem_take hc))


/-- Witness for C9 at a concrete one-commit input. -/
theorem c9_comments_always_zero_witness :
    ({ name := "Alice", commentsWritten := 0 } : NameComments).commentsWritten = 0 :=
  (c9_comments_always_zero c9commits [] [] [] [] (calculateStreaks c9commits)).2
    { name := "Alice", commentsWritten := 0 } (by decide)

/-! ## C3: the work-item phase of the aggregator -/

theorem updateFirstBy_eq_map (a : String) (f : Contributor → Contributor)
    (m : List Contributor) (hnd : nodupNames m) :
    updateFirstBy (fun x => x.name == a) f m
      = m.map (fun c => if c.name = a then f c else c) := by
  induction m with
  | nil => rfl
  | cons c rest ih =>
    have h' := hnd
    simp only [nodupNames, List.map_cons, List.nodup_cons] at h'
    obtain ⟨hc, hrest⟩ := h'
    by_cases hca : c.name = a
    · simp only [updateFirstBy, List.map_cons, hca, beq_self_eq_true, if_true, if_pos rfl]
      congr 1
      have : ∀ x ∈ rest, (if x.name = a then f x else x) = x := by
        intro x hx
        rw [if_neg]
        intro hxa
        exact hc (hca ▸ hxa ▸ List.mem_map_of_mem (fun y => y.name) hx)
      exact ((List.map_congr_left this).trans (List.map_id _)).symm
    · have hb : (c.name == a) = false := by simpa using hca
      simp only [updateFirstBy, List.map_cons, hb, Bool.false_eq_true, if_false, if_neg hca]
      congr 1
      exact ih (by simpa [nodupNames] using hrest)

theorem nodupNames_map (g : Contributor → Contributor) (hg : ∀ c, (g c).name = c.name)
    (m : List Contributor) (h : nodupNames m) : nodupNames (m.map g) := by
  unfold nodupNames
  rw [List.map_map]
  have hfun : ((fun c => c.name) ∘ g) = fun c : Contributor => c.name :=
    funext fun c => hg c
  rw [hfun]
  exact h

/-- C3: a work item whose assignee is absent or unknown leaves the contributor
map unchanged; for a known assignee, exactly that contributor's record gains a
bugs-fixed increment precisely when the item is a "Bug" in state "Done", and
gains the story-point estimate (default 0) regardless of type or state. -/
theorem c3_workitem_step (m : List Contributor) (wi : WorkItem) :
    ((wi.assignedTo = none → wiStep m wi = m) ∧
     (∀ a, wi.assignedTo = some a → hasName m a = false → wiStep m wi = m)) ∧
    (∀ a, wi.assignedTo = some a → hasName m a = true → nodupNames m →
      wiStep m wi = m.map (fun c =>
        if c.name = a then
          { c with
              bugsFixed :=
                c.bugsFixed + (if wi.wiType = "Bug" ∧ wi.state = "Done" then 1 else 0),
              storyPointsDone := c.storyPointsDone + wi.storyPoints.getD 0 }
        else c)) := by
  refine ⟨⟨?_, ?_⟩, ?_⟩
  · intro h
    simp [wiStep, h]
  · intro a ha hno
    simp [wiStep, ha, hno]
  · intro a ha hyes hnd
    simp only [wiStep, ha]
    rw [if_pos hyes]
    by_cases hb : (wi.wiType == "Bug" && wi.state == "Done") = true
    · have hbp : wi.wiType = "Bug" ∧ wi.state = "Done" := by
        simpa [Bool.and_eq_true, beq_iff_eq] using hb
      rw [if_pos hb]
      rw [updateFirstBy_eq_map a _ m hnd,
        updateFirstBy_eq_map a _ _
          (nodupNames_map _ (fun c => by split <;> rfl) m hnd),
        List.map_map]
      refine List.map_congr_left ?_
      intro c _
      simp only [Function.comp_apply]
      by_cases hca : c.name = a
      · rw [if_pos hca]
        dsimp only
        rw [if_pos hca, if_pos hca, if_pos hbp]
      · rw [if_neg hca, if_neg hca, if_neg hca]
    · have hbp : ¬ (wi.wiType = "Bug" ∧ wi.state = "Done") := by
        simpa [Bool.and_eq_true, beq_iff_eq] using hb
      rw [if_neg hb]
      rw [updateFirstBy_eq_map a _ m hnd]
      refine List.map_congr_left ?_
      intro c _
      by_cases hca : c.name = a
      · rw [if_pos hca, if_pos hca, if_neg hbp]
        simp
      · rw [if_neg hca, if_neg hca]

/-- Witness for C3 at a concrete map and closed Bug work item. -/
theorem c3_workitem_step_witness :
    wiStep c3map c3wi = c3map.map (fun c =>
      if c.name = "Alice" then
        { c with
            bugsFixed :=
              c.bugsFixed + (if c3wi.wiType = "Bug" ∧ c3wi.state = "Done" then 1 else 0),
            storyPointsDone := c.storyPointsDone + c3wi.storyPoints.getD 0 }
      else c) :=
  (c3_workitem_step c3map c3wi).2 "Alice" rfl (by decide) (by unfold nodupNames; decide)


/-! ## C4: the streak walk computes the longest run of consecutive days -/

theorem streakLoop_eq (l : List ℕ) : ∀ (p c m : ℕ), 1 ≤ c → c ≤ m →
    streakLoop l p c m = max m (max (c + consecFrom p l) (maxRun l)) := by
  induction l with
  | nil =>
    intro p c m hc hm
    simp only [streakLoop, consecFrom, maxRun]
    omega
  | cons d rest ih =>
    intro p c m hc hm
    simp only [streakLoop, consecFrom, maxRun]
    by_cases hd : d = p + 1
    · rw [if_pos hd, if_pos hd, ih d (c + 1) (max m (c + 1)) (by omega) (by omega)]
      omega
    · rw [if_neg hd, if_neg hd, ih d 1 m (by omega) (by omega)]
      omega

theorem streakOfDates_eq_maxRun (dates : List ℕ) :
    streakOfDates dates = maxRun (dates.insertionSort (· ≤ ·)) := by
  unfold streakOfDates
  cases h : dates.insertionSort (· ≤ ·) with
  | nil => rfl
  | cons d rest =>
    dsimp only
    rw [streakLoop_eq rest d 1 1 (by omega) (by omega)]
    simp only [maxRun]
    omega

theorem consecFrom_witness (l : List ℕ) : ∀ (p : ℕ), ∃ t, (∃ e, t ++ e = l) ∧
    List.Chain' (fun x y => y = x + 1) (p :: t) ∧ t.length = consecFrom p l := by
  induction l with
  | nil =>
    intro p
    exact ⟨[], ⟨[], rfl⟩, List.chain'_singleton p, rfl⟩
  | cons d rest ih =>
    intro p
    by_cases hd : d = p + 1
    · obtain ⟨t, ⟨e, he⟩, hch, hlen⟩ := ih d
      refine ⟨d :: t, ⟨e, by simp [he]⟩, List.chain'_cons.mpr ⟨hd, hch⟩, ?_⟩
      simp only [consecFrom, if_pos hd, List.length_cons, hlen]
      omega
    · exact ⟨[], ⟨d :: rest, rfl⟩, List.chain'_singleton p, by simp [consecFrom, hd]⟩

theorem maxRun_witness (l : List ℕ) : ∃ t, (∃ s e, s ++ t ++ e = l) ∧
    List.Chain' (fun x y => y = x + 1) t ∧ t.length = maxRun l := by
  induction l with
  | nil => exact ⟨[], ⟨[], [], rfl⟩, List.chain'_nil, rfl⟩
  | cons d rest ih =>
    rcases Nat.le_total (maxRun rest) (1 + consecFrom d rest) with hle | hge
    · obtain ⟨t, ⟨e, he⟩, hch, hlen⟩ := consecFrom_witness rest d
      refine ⟨d :: t, ⟨[], e, by simp [he]⟩, hch, ?_⟩
      simp only [maxRun, List.length_cons]
      omega
    · obtain ⟨t, ⟨s, e, hse⟩, hch, hlen⟩ := ih
      refine ⟨t, ⟨d :: s, e, by simp [hse]⟩, hch, ?_⟩
      simp only [maxRun]
      omega

theorem consecFrom_bound (t : List ℕ) : ∀ (l : List ℕ) (p : ℕ), (∃ e, t ++ e = l) →
    List.Chain' (fun x y => y = x + 1) (p :: t) → t.length ≤ consecFrom p l := by
  induction t with
  | nil =>
    intro l p _ _
    simp
  | cons x t' ih =>
    intro l p he hch
    obtain ⟨e, he⟩ := he
    subst he
    have hx : x = p + 1 := (List.chain'_cons.mp hch).1
    have hch' : List.Chain' (fun x y => y = x + 1) (x :: t') := (List.chain'_cons.mp hch).2
    simp only [List.cons_append, consecFrom, if_pos hx, List.length_cons]
    have := ih (t' ++ e) x ⟨e, rfl⟩ hch'
    simp only [List.append_eq] at *
    omega

theorem maxRun_bound (l : List ℕ) : ∀ (t : List ℕ), (∃ s e, s ++ t ++ e = l) →
    List.Chain' (fun x y => y = x + 1) t → t.length ≤ maxRun l := by
  induction l with
  | nil =>
    intro t hin _
    obtain ⟨s, e, hse⟩ := hin
    obtain ⟨h1, h2⟩ := List.append_eq_nil.mp hse
    obtain ⟨h3, h4⟩ := List.append_eq_nil.mp h1
    subst h4
    simp [maxRun]
  | cons d rest ih =>
    intro t hin hch
    obtain ⟨s, e, hse⟩ := hin
    cases s with
    | nil =>
      cases t with
      | nil => simp [maxRun]
      | cons x t' =>
        simp only [List.nil_append, List.cons_append, List.cons.injEq] at hse
        obtain ⟨rfl, hrest⟩ := hse
        have hb := consecFrom_bound t' rest x ⟨e, hrest⟩ hch
        simp only [maxRun, List.length_cons]
        omega
    | cons y s' =>
      simp only [List.cons_append, List.cons.injEq] at hse
      obtain ⟨rfl, hrest⟩ := hse
      have := ih t ⟨s', e, hrest⟩ hch
      simp only [maxRun]
      omega

theorem find?_keyed (f : String → ℕ) (a : String) (L : List String) :
    ((L.map (fun x => (x, f x))).find? (fun p => p.1 == a))
      = if a ∈ L then some (a, f a) else none := by
  induction L with
  | nil => simp
  | cons x L' ih =>
    simp only [List.map_cons, List.find?_cons]
    by_cases hx : x = a
    · subst hx
      simp
    · have : ((x, f x).1 == a) = false := by simpa using hx
      rw [this]
      rw [ih]
      by_cases ha : a ∈ L' <;> simp [ha, hx, Ne.symm hx]

theorem streakFor_eq (commits : List Commit) (a : String) :
    streakFor (calculateStreaks commits) a = streakOfDates (authorDates commits a) := by
  unfold streakFor calculateStreaks
  dsimp only
  rw [find?_keyed (fun x => streakOfDates (authorDates commits x)) a (authorsOf commits)]
  by_cases ha : a ∈ authorsOf commits
  · simp [ha]
  · have hdates : authorDates commits a = [] := by
      unfold authorDates
      have : commits.filter (fun c => c.authorName == a) = [] := by
        rw [List.filter_eq_nil_iff]
        intro c hc hca
        apply ha
        unfold authorsOf
        rw [List.mem_dedup]
        have : c.authorName = a := by simpa using hca
        exact this ▸ List.mem_map_of_mem (fun c => c.authorName) hc
      rw [this]
      rfl
    simp [ha, hdates, streakOfDates]

/-- C4: for every contributor, the streak reported by `calculateStreaks` is
the length of the longest contiguous block of the sorted distinct commit-date
list on which adjacent dates are exactly one day apart; in particular three
consecutive commit days give streak 3, and days 1, 2 and 4 give streak 2. -/
theorem c4_longest_streak (commits : List Commit) (a : String) :
    (∃ t, (∃ s e, s ++ t ++ e = sortedAuthorDates commits a) ∧
        List.Chain' (fun x y => y = x + 1) t ∧
        t.length = streakFor (calculateStreaks commits) a) ∧
    (∀ t, (∃ s e, s ++ t ++ e = sortedAuthorDates commits a) →
        List.Chain' (fun x y => y = x + 1) t →
        t.length ≤ streakFor (calculateStreaks commits) a) ∧
    streakFor (calculateStreaks c4commits1) "Ana" = 3 ∧
    streakFor (calculateStreaks c4commits2) "Ana" = 2 := by
  rw [streakFor_eq, streakOfDates_eq_maxRun]
  refine ⟨maxRun_witness _, ?_, by decide, by decide⟩
  intro t hin hch
  exact maxRun_bound _ t hin hch

/-- Witness for C4: the upper-bound part applied to the concrete two-day run
inside the three-consecutive-days input. -/
theorem c4_longest_streak_witness :
    ([100, 101] : List ℕ).length ≤ streakFor (calculateStreaks c4commits1) "Ana" :=
  (c4_longest_streak c4commits1 "Ana").2.1 [100, 101] ⟨[], [102], by decide⟩ (by simp)


end ProjectWrapped
